import Mathlib

/-!
Shallow embedding of the VAD-based live-transcription core of
`simple-meeting-note-taker` (files `whisper_live_faster.py`,
`whisper_live_vad.py`, `transcript_utils.py`), together with proofs
settling the specification claims about it.

The speech segmenter, the stop/flush logic and the transcription worker
are textually identical between `FasterWhisperLiveTranscriber`
(`whisper_live_faster.py`) and `VADLiveTranscriber` (`whisper_live_vad.py`);
they are embedded once below.
-/

/-- A raw audio frame: 30 ms of mono 16-bit PCM, carried as its byte list.
Frame contents only matter through the classifier oracle. -/
abbrev Frame := List Nat

/-- A classified frame: `(frame, is_speech)` as stored in the ring buffer. -/
abbrev CFrame := Frame × Bool

/-- `self.frame_duration_ms = 30`. -/
def frame_duration_ms : Nat := 30

/-- `self.padding_duration_ms = 300`. -/
def padding_duration_ms : Nat := 300

/-- `self.ring_buffer_size = padding_duration_ms // frame_duration_ms` (= 10);
this is the `maxlen` of the `collections.deque` ring buffer. -/
def ring_buffer_size : Nat := padding_duration_ms / frame_duration_ms

/-- `self.num_padding_frames = int(padding_duration_ms / frame_duration_ms)` (= 10). -/
def num_padding_frames : Nat := padding_duration_ms / frame_duration_ms

/-- `deque.append` with `maxlen = ring_buffer_size`: append on the right,
evicting the oldest entries on the left when the capacity is exceeded. -/
def ringAppend (r : List CFrame) (x : CFrame) : List CFrame :=
  let r2 := r ++ [x]
  if ring_buffer_size < r2.length then r2.drop (r2.length - ring_buffer_size) else r2

/-- `num_voiced = len([f for f, speech in self.ring_buffer if speech])`. -/
def voicedCount (r : List CFrame) : Nat :=
  (r.filter (fun p => p.2)).length

/-- `num_unvoiced = len([f for f, speech in self.ring_buffer if not speech])`. -/
def unvoicedCount (r : List CFrame) : Nat :=
  (r.filter (fun p => !p.2)).length

/-- The mutable segmentation state of the transcriber:
`self.ring_buffer` (oldest first), `self.triggered`, `self.voiced_frames`. -/
structure SegState where
  ring : List CFrame
  triggered : Bool
  voiced : List Frame
deriving Repr, DecidableEq

/-- State at construction time: empty ring buffer, not triggered, no voiced frames. -/
def initSegState : SegState := ⟨[], false, []⟩

/-- One iteration of the body of the `while self.is_recording` loop of
`record_audio_vad`, given the frame just read and its classification.
Returns the new state and the segment enqueued on `self.audio_queue`, if any.

The source guards are `num_voiced > 0.9 * self.ring_buffer.maxlen` and
`num_unvoiced > 0.9 * self.ring_buffer.maxlen`; with `maxlen = 10` the
float product `0.9 * 10` is exactly `9.0` in IEEE double precision, so the
comparison is exactly the rational inequality `10 * count > 9 * maxlen`
encoded here over `Nat`. -/
def recordAudioVadStep (s : SegState) (frame : Frame) (sp : Bool) :
    SegState × Option (List Frame) :=
  if s.triggered = false then
    let ring := ringAppend s.ring (frame, sp)
    if 10 * voicedCount ring > 9 * ring_buffer_size then
      -- triggered := True; voiced_frames.extend(ring_buffer frames); ring_buffer.clear()
      ({ ring := [], triggered := true, voiced := s.voiced ++ ring.map Prod.fst }, none)
    else
      ({ s with ring := ring }, none)
  else
    -- voiced_frames.append(frame); ring_buffer.append((frame, is_speech))
    let voiced := s.voiced ++ [frame]
    let ring := ringAppend s.ring (frame, sp)
    if 10 * unvoicedCount ring > 9 * ring_buffer_size then
      -- triggered := False; enqueue only if len(voiced_frames) > 10; reset buffers
      (⟨[], false, []⟩, if voiced.length > 10 then some voiced else none)
    else
      ({ s with ring := ring, voiced := voiced }, none)

/-- The WebRTC classifier oracle: `self.vad.is_speech(frame, sample_rate)`,
which may raise (modelled as `Except.error`). -/
abbrev VadFun := Frame → Except Unit Bool

/-- `is_speech`: wraps the classifier, returning `False` on any exception. -/
def is_speech (vad : VadFun) (f : Frame) : Bool :=
  match vad f with
  | Except.ok b => b
  | Except.error _ => false

/-- The `while self.is_recording` loop of `record_audio_vad` run over a finite
list of frames read from the stream, collecting every segment enqueued on
`self.audio_queue` in order. -/
def recordRunFrom (vad : VadFun) (s : SegState) : List Frame → SegState × List (List Frame)
  | [] => (s, [])
  | f :: rest =>
    let step := recordAudioVadStep s f (is_speech vad f)
    let next := recordRunFrom vad step.1 rest
    (next.1, step.2.toList ++ next.2)

/-- The frames the segmenter is still holding and may later emit: the
utterance buffer, plus (while idle) the ring-buffer lead-in that would seed
the next utterance. -/
def pendingFrames (s : SegState) : List Frame :=
  if s.triggered then s.voiced else s.voiced ++ s.ring.map Prod.fst

-- Basic lemmas about the ring buffer.

theorem ringAppend_length_le (r : List CFrame) (x : CFrame) :
    (ringAppend r x).length ≤ ring_buffer_size := by
  unfold ringAppend
  dsimp only
  split
  · simp only [List.length_drop]
    omega
  · omega

theorem ringAppend_sublist (r : List CFrame) (x : CFrame) :
    (ringAppend r x).Sublist (r ++ [x]) := by
  unfold ringAppend
  dsimp only
  split
  · exact List.drop_sublist _ _
  · exact List.Sublist.refl _

theorem map_fst_ringAppend_sublist (r : List CFrame) (x : CFrame) :
    ((ringAppend r x).map Prod.fst).Sublist (r.map Prod.fst ++ [x.1]) := by
  have h := (ringAppend_sublist r x).map Prod.fst
  simpa using h

theorem voicedCount_le (r : List CFrame) : voicedCount r ≤ r.length :=
  List.length_filter_le _ _

theorem unvoicedCount_le (r : List CFrame) : unvoicedCount r ≤ r.length :=
  List.length_filter_le _ _

-- Step-level lemmas about the segmenter.

theorem step_emit_eq (s : SegState) (f : Frame) (sp : Bool) (seg : List Frame)
    (h : (recordAudioVadStep s f sp).2 = some seg) :
    s.triggered = true ∧ seg = s.voiced ++ [f] ∧ 10 < seg.length := by
  rcases htr : s.triggered with _ | _
  · simp [recordAudioVadStep, htr] at h
    split at h <;> simp_all
  · simp [recordAudioVadStep, htr] at h
    split at h
    · split at h
      · simp at h
        subst h
        refine ⟨rfl, rfl, ?_⟩
        simp only [List.length_append, List.length_cons, List.length_nil]
        omega
      · simp at h
    · simp at h

theorem step_pending_sublist (s : SegState) (f : Frame) (sp : Bool) :
    (pendingFrames (recordAudioVadStep s f sp).1).Sublist (pendingFrames s ++ [f]) := by
  have hmap := map_fst_ringAppend_sublist s.ring (f, sp)
  rcases htr : s.triggered with _ | _
  · have hpend : pendingFrames s = s.voiced ++ s.ring.map Prod.fst := by
      simp [pendingFrames, htr]
    by_cases hc : 10 * voicedCount (ringAppend s.ring (f, sp)) > 9 * ring_buffer_size
    · have hstate : (recordAudioVadStep s f sp).1 =
          ⟨[], true, s.voiced ++ (ringAppend s.ring (f, sp)).map Prod.fst⟩ := by
        simp [recordAudioVadStep, htr, hc]
      rw [hstate, hpend]
      show (s.voiced ++ (ringAppend s.ring (f, sp)).map Prod.fst).Sublist _
      rw [List.append_assoc, List.append_sublist_append_left]
      exact hmap
    · have hstate : (recordAudioVadStep s f sp).1 =
          ⟨ringAppend s.ring (f, sp), s.triggered, s.voiced⟩ := by
        simp [recordAudioVadStep, htr, hc]
      rw [hstate, hpend]
      have hpend2 : pendingFrames ⟨ringAppend s.ring (f, sp), s.triggered, s.voiced⟩ =
          s.voiced ++ (ringAppend s.ring (f, sp)).map Prod.fst := by
        simp [pendingFrames, htr]
      rw [hpend2, List.append_assoc, List.append_sublist_append_left]
      exact hmap
  · have hpend : pendingFrames s = s.voiced := by
      simp [pendingFrames, htr]
    by_cases hc : 10 * unvoicedCount (ringAppend s.ring (f, sp)) > 9 * ring_buffer_size
    · have hstate : (recordAudioVadStep s f sp).1 = ⟨[], false, []⟩ := by
        simp [recordAudioVadStep, htr, hc]
      rw [hstate, hpend]
      exact List.nil_sublist _
    · have hstate : (recordAudioVadStep s f sp).1 =
          ⟨ringAppend s.ring (f, sp), s.triggered, s.voiced ++ [f]⟩ := by
        simp [recordAudioVadStep, htr, hc]
      rw [hstate, hpend]
      have hpend2 : pendingFrames ⟨ringAppend s.ring (f, sp), s.triggered, s.voiced ++ [f]⟩ =
          s.voiced ++ [f] := by
        simp [pendingFrames, htr]
      rw [hpend2]

/-- Trace invariant: any segment the recording loop enqueues, starting from
state `s`, preserves the arrival order of a sub-sequence of the frames the
segmenter was holding plus the frames subsequently read. -/
theorem recordRunFrom_sublist (vad : VadFun) (frames : List Frame) :
    ∀ (s : SegState) (seg : List Frame),
      seg ∈ (recordRunFrom vad s frames).2 → seg.Sublist (pendingFrames s ++ frames) := by
  induction frames with
  | nil =>
    intro s seg h
    simp [recordRunFrom] at h
  | cons f rest ih =>
    intro s seg h
    simp only [recordRunFrom] at h
    rcases List.mem_append.mp h with hm | hm
    · have hemit : (recordAudioVadStep s f (is_speech vad f)).2 = some seg := by
        rcases ho : (recordAudioVadStep s f (is_speech vad f)).2 with _ | seg0
        · rw [ho] at hm
          simp at hm
        · rw [ho] at hm
          simp at hm
          rw [hm]
      obtain ⟨htr, hseg, _⟩ := step_emit_eq _ _ _ _ hemit
      have hpend : pendingFrames s = s.voiced := by
        simp [pendingFrames, htr]
      rw [hseg, hpend]
      have h5 : (s.voiced ++ [f] ++ rest) = s.voiced ++ f :: rest := by simp
      have h6 : (s.voiced ++ [f]).Sublist (s.voiced ++ [f] ++ rest) :=
        List.sublist_append_left _ _
      rw [h5] at h6
      exact h6
    · have h1 := ih _ _ hm
      have h2 := step_pending_sublist s f (is_speech vad f)
      have h3 : (pendingFrames (recordAudioVadStep s f (is_speech vad f)).1 ++ rest).Sublist
          ((pendingFrames s ++ [f]) ++ rest) :=
        h2.append (List.Sublist.refl rest)
      have h4 : (pendingFrames s ++ [f]) ++ rest = pendingFrames s ++ f :: rest := by
        simp
      exact h1.trans (h4 ▸ h3)

-- Concrete inputs used by counterexamples and witnesses.

/-- A concrete frame whose classifier decision will be "speech" below. -/
def frameA : Frame := [1]

/-- A concrete frame whose classifier decision will be "non-speech" below. -/
def frameB : Frame := [0]

/-- An idle state whose ring buffer holds one non-speech frame followed by
eight speech frames (nine entries in total). -/
def idleNine : SegState := ⟨(frameB, false) :: List.replicate 8 (frameA, true), false, []⟩

/-- An idle state whose ring buffer holds nine speech frames. -/
def idleNineVoiced : SegState := ⟨List.replicate 9 (frameA, true), false, []⟩

/-- A concrete classifier: `frameA` is speech, everything else is not. -/
def exVad : VadFun := fun f => Except.ok (f == frameA)

/-- Ten speech frames followed by ten silence frames. -/
def exFrames : List Frame := List.replicate 10 frameA ++ List.replicate 10 frameB

/-- The single segment the loop emits on `exFrames`. -/
def exSeg : List Frame := List.replicate 10 frameA ++ List.replicate 10 frameB

/-- Claim C2 counterexample: with the ring buffer holding exactly 9 voiced
frames out of 10 (at least 90 percent), the onset transition does NOT fire,
because the source guard `num_voiced > 0.9 * maxlen` is strict. -/
theorem onset_nine_of_ten_no_fire :
    (ringAppend idleNine.ring (frameA, true)).length = 10
    ∧ voicedCount (ringAppend idleNine.ring (frameA, true)) = 9
    ∧ idleNine.triggered = false
    ∧ (recordAudioVadStep idleNine frameA true).1.triggered = false := by
  decide

/-- Claim C2 (amended): the onset transition (Idle to Triggered) fires exactly
when STRICTLY more than 90 percent of the ring-buffer window is classified
speech — with capacity 10 this means all 10 of the last 10 frames — and the
offset transition fires exactly when strictly more than 90 percent is
classified non-speech; 9-of-10 voiced frames do not fire onset. -/
theorem onset_offset_fire_iff_strict :
    ∀ (s : SegState) (f : Frame) (sp : Bool),
      (s.triggered = false →
        ((recordAudioVadStep s f sp).1.triggered = true ↔
          voicedCount (ringAppend s.ring (f, sp)) = ring_buffer_size))
      ∧ (s.triggered = true →
        ((recordAudioVadStep s f sp).1.triggered = false ↔
          unvoicedCount (ringAppend s.ring (f, sp)) = ring_buffer_size)) := by
  intro s f sp
  have hlen := ringAppend_length_le s.ring (f, sp)
  have hv := voicedCount_le (ringAppend s.ring (f, sp))
  have hu := unvoicedCount_le (ringAppend s.ring (f, sp))
  have hrbs : ring_buffer_size = 10 := rfl
  constructor
  · intro htr
    by_cases hc : 10 * voicedCount (ringAppend s.ring (f, sp)) > 9 * ring_buffer_size
    · have hstate : (recordAudioVadStep s f sp).1.triggered = true := by
        simp [recordAudioVadStep, htr, hc]
      rw [hstate, hrbs]
      rw [hrbs] at hc hlen
      constructor
      · intro _
        omega
      · intro _
        rfl
    · have hstate : (recordAudioVadStep s f sp).1.triggered = false := by
        simp [recordAudioVadStep, htr, hc]
      rw [hstate, hrbs]
      rw [hrbs] at hc hlen
      constructor
      · intro hx
        exact absurd hx (by simp)
      · intro hx
        exact absurd hx (by omega)
  · intro htr
    by_cases hc : 10 * unvoicedCount (ringAppend s.ring (f, sp)) > 9 * ring_buffer_size
    · have hstate : (recordAudioVadStep s f sp).1.triggered = false := by
        simp [recordAudioVadStep, htr, hc]
      rw [hstate, hrbs]
      rw [hrbs] at hc hlen
      constructor
      · intro _
        omega
      · intro _
        rfl
    · have hstate : (recordAudioVadStep s f sp).1.triggered = true := by
        simp [recordAudioVadStep, htr, hc]
      rw [hstate, hrbs]
      rw [hrbs] at hc hlen
      constructor
      · intro hx
        exact absurd hx (by simp)
      · intro hx
        exact absurd hx (by omega)

/-- Witness for the amended C2 theorem: a ring of 9 voiced frames plus a
tenth voiced frame fires onset, and the equivalence holds there. -/
theorem onset_offset_fire_iff_strict_witness :
    idleNineVoiced.triggered = false
    ∧ ((recordAudioVadStep idleNineVoiced frameA true).1.triggered = true ↔
        voicedCount (ringAppend idleNineVoiced.ring (frameA, true)) = ring_buffer_size) :=
  ⟨by decide, (onset_offset_fire_iff_strict idleNineVoiced frameA true).1 (by decide)⟩

/-- Claim C5: for every frame sequence and every start state, the recording
loop never enqueues a segment of 10 or fewer frames at an offset transition
(the only place the loop enqueues); such short bursts are discarded. -/
theorem no_short_segment_at_offset :
    ∀ (vad : VadFun) (s : SegState) (frames : List Frame) (seg : List Frame),
      seg ∈ (recordRunFrom vad s frames).2 → 10 < seg.length := by
  intro vad s frames
  induction frames generalizing s with
  | nil =>
    intro seg h
    simp [recordRunFrom] at h
  | cons f rest ih =>
    intro seg h
    simp only [recordRunFrom] at h
    rcases List.mem_append.mp h with hm | hm
    · have hemit : (recordAudioVadStep s f (is_speech vad f)).2 = some seg := by
        rcases ho : (recordAudioVadStep s f (is_speech vad f)).2 with _ | seg0
        · rw [ho] at hm
          simp at hm
        · rw [ho] at hm
          simp at hm
          rw [hm]
      exact (step_emit_eq _ _ _ _ hemit).2.2
    · exact ih _ _ hm

/-- Witness for C5: a concrete run that does emit one segment, of 20 frames. -/
theorem no_short_segment_at_offset_witness :
    exSeg ∈ (recordRunFrom exVad initSegState exFrames).2 ∧ 10 < exSeg.length :=
  ⟨by decide, no_short_segment_at_offset exVad initSegState exFrames exSeg (by decide)⟩

/-- Claim C6: at the onset transition the utterance buffer is seeded with every
frame then present in the ring buffer in order (including non-speech lead-in),
the ring buffer is cleared, and the lead-in is at most `num_padding_frames`
frames long; moreover every segment the loop emits from the start state
preserves the arrival order of the input frames (it is a sublist of them). -/
theorem segments_preserve_order_and_leadin :
    (∀ (s : SegState) (f : Frame) (sp : Bool),
        s.triggered = false →
        (recordAudioVadStep s f sp).1.triggered = true →
        (recordAudioVadStep s f sp).1.voiced
            = s.voiced ++ (ringAppend s.ring (f, sp)).map Prod.fst
          ∧ (recordAudioVadStep s f sp).1.ring = []
          ∧ ((ringAppend s.ring (f, sp)).map Prod.fst).length ≤ num_padding_frames)
    ∧ (∀ (vad : VadFun) (frames seg : List Frame),
        seg ∈ (recordRunFrom vad initSegState frames).2 → seg.Sublist frames) := by
  constructor
  · intro s f sp htr hfire
    by_cases hc : 10 * voicedCount (ringAppend s.ring (f, sp)) > 9 * ring_buffer_size
    · have h1 : (recordAudioVadStep s f sp).1 =
          ⟨[], true, s.voiced ++ (ringAppend s.ring (f, sp)).map Prod.fst⟩ := by
        simp [recordAudioVadStep, htr, hc]
      rw [h1]
      refine ⟨rfl, rfl, ?_⟩
      rw [List.length_map]
      exact ringAppend_length_le s.ring (f, sp)
    · have h1 : (recordAudioVadStep s f sp).1.triggered = false := by
        simp [recordAudioVadStep, htr, hc]
      rw [h1] at hfire
      exact absurd hfire (by simp)
  · intro vad frames seg h
    have h1 := recordRunFrom_sublist vad frames initSegState seg h
    simpa [pendingFrames, initSegState] using h1

/-- Witness for C6: a concrete onset seeds the buffer with the full ring
content and clears the ring, and the concrete run's segment is a sublist of
its input frames. -/
theorem segments_preserve_order_and_leadin_witness :
    ((recordAudioVadStep idleNineVoiced frameA true).1.voiced
        = idleNineVoiced.voiced ++ (ringAppend idleNineVoiced.ring (frameA, true)).map Prod.fst
      ∧ (recordAudioVadStep idleNineVoiced frameA true).1.ring = [])
    ∧ exSeg.Sublist exFrames :=
  ⟨⟨(segments_preserve_order_and_leadin.1 idleNineVoiced frameA true (by decide) (by decide)).1,
    (segments_preserve_order_and_leadin.1 idleNineVoiced frameA true (by decide) (by decide)).2.1⟩,
   segments_preserve_order_and_leadin.2 exVad exFrames exSeg (by decide)⟩

/-- An always-raising classifier, for witnesses. -/
def badVad : VadFun := fun _ => Except.error ()

/-- Claim C8: a classifier exception makes `is_speech` return `false` for that
frame, and the recording loop then behaves exactly as if every failing frame
had been classified non-speech — the stream keeps processing all frames and
is never aborted. -/
theorem classifier_failure_treated_nonspeech :
    (∀ (vad : VadFun) (f : Frame) (e : Unit),
        vad f = Except.error e → is_speech vad f = false)
    ∧ (∀ (bad : VadFun), (∀ f, bad f = Except.error ()) →
        ∀ (s : SegState) (frames : List Frame),
          recordRunFrom bad s frames = recordRunFrom (fun _ => Except.ok false) s frames) := by
  constructor
  · intro vad f e h
    simp [is_speech, h]
  · intro bad hbad s frames
    induction frames generalizing s with
    | nil => simp [recordRunFrom]
    | cons f rest ih =>
      have hsp : is_speech bad f = is_speech (fun _ => Except.ok false) f := by
        simp [is_speech, hbad f]
      simp only [recordRunFrom, hsp]
      rw [ih]

/-- Witness for C8: the always-raising classifier is non-speech on a concrete
frame, and a concrete 20-frame run proceeds identically to the constant
non-speech classifier. -/
theorem classifier_failure_treated_nonspeech_witness :
    badVad frameA = Except.error ()
    ∧ is_speech badVad frameA = false
    ∧ recordRunFrom badVad initSegState exFrames
        = recordRunFrom (fun _ => Except.ok false) initSegState exFrames :=
  ⟨rfl, classifier_failure_treated_nonspeech.1 badVad frameA () rfl,
   classifier_failure_treated_nonspeech.2 badVad (fun _ => rfl) initSegState exFrames⟩

/-- The `transcribe_worker` loop: at each iteration it re-evaluates the guard
`self.is_recording or not self.audio_queue.empty()` (`recAt i` is the value of
the recording flag the worker observes at iteration `i`); if the queue is
empty it times out (`queue.Empty`) and continues, otherwise it pops and
processes one segment. `fuel` bounds the number of iterations modelled;
`none` means the loop was still running when fuel ran out. -/
def transcribeWorker (recAt : Nat → Bool) :
    Nat → Nat → List (List Frame) → List (List Frame) → Option (List (List Frame))
  | 0, _, _, _ => none
  | fuel + 1, i, q, done =>
    if recAt i || !q.isEmpty then
      match q with
      | [] => transcribeWorker recAt fuel (i + 1) [] done
      | seg :: rest => transcribeWorker recAt fuel (i + 1) rest (done ++ [seg])
    else
      some done

/-- Claim C7: the worker loop exits only after observing the recording flag
false with the queue simultaneously drained — whenever it exits it has
processed every queued segment, in order, and some iteration observed
`recording = false`; while the flag stays true it never exits. -/
theorem transcribe_worker_exit_conditions :
    (∀ (recAt : Nat → Bool) (fuel i : Nat) (q done out : List (List Frame)),
        transcribeWorker recAt fuel i q done = some out →
        (∃ j, i ≤ j ∧ recAt j = false) ∧ out = done ++ q)
    ∧ (∀ (recAt : Nat → Bool) (fuel i : Nat) (q done : List (List Frame)),
        (∀ j, recAt j = true) → transcribeWorker recAt fuel i q done = none) := by
  constructor
  · intro recAt fuel
    induction fuel with
    | zero =>
      intro i q done out h
      simp [transcribeWorker] at h
    | succ fuel ih =>
      intro i q done out h
      rw [transcribeWorker.eq_def] at h
      dsimp only at h
      by_cases hg : (recAt i || !q.isEmpty) = true
      · rw [if_pos hg] at h
        rcases q with _ | ⟨seg, rest⟩
        · obtain ⟨⟨j, hj1, hj2⟩, hout⟩ := ih (i + 1) [] done out h
          exact ⟨⟨j, by omega, hj2⟩, by simpa using hout⟩
        · obtain ⟨⟨j, hj1, hj2⟩, hout⟩ := ih (i + 1) rest (done ++ [seg]) out h
          refine ⟨⟨j, by omega, hj2⟩, ?_⟩
          rw [hout]
          simp
      · rw [if_neg hg] at h
        have hrec : recAt i = false ∧ q.isEmpty = true := by
          rcases hr : recAt i with _ | _ <;> rcases hq : q.isEmpty with _ | _ <;>
            simp [hr, hq] at hg ⊢
        have hq : q = [] := by
          cases q
          · rfl
          · simp at hrec
        subst hq
        refine ⟨⟨i, le_refl i, hrec.1⟩, ?_⟩
        simp at h
        simp [h]
  · intro recAt fuel
    induction fuel with
    | zero =>
      intro i q done h
      simp [transcribeWorker]
    | succ fuel ih =>
      intro i q done h
      rw [transcribeWorker.eq_def]
      dsimp only
      rw [if_pos (by simp [h i])]
      rcases q with _ | ⟨seg, rest⟩
      · exact ih (i + 1) [] done h
      · exact ih (i + 1) rest (done ++ [seg]) h

/-- A recording flag that is true at iteration 0 and false afterwards. -/
def exRecAt : Nat → Bool := fun j => j == 0

/-- Witness for C7: a concrete worker run that terminates after draining one
segment, with the exit conditions holding. -/
theorem transcribe_worker_exit_conditions_witness :
    transcribeWorker exRecAt 4 0 [exSeg] [] = some [exSeg]
    ∧ ((∃ j, 0 ≤ j ∧ exRecAt j = false) ∧ [exSeg] = [] ++ [exSeg]) :=
  ⟨by decide, transcribe_worker_exit_conditions.1 exRecAt 4 0 [exSeg] [] [exSeg] (by decide)⟩

/-- The session state shared between `stop()` and the recording thread:
`self.is_recording`, the segmenter state, and `self.audio_queue` (the list of
segments enqueued, in order). -/
structure Session where
  is_recording : Bool
  seg : SegState
  audio_queue : List (List Frame)
deriving Repr, DecidableEq

/-- The body of `stop()` before the thread joins: set `is_recording = False`,
then `if self.voiced_frames:` save the accumulated frames and enqueue them on
`self.audio_queue`. Note that `voiced_frames` is NOT cleared. -/
def stopFlush (st : Session) : Session :=
  { st with
      is_recording := false,
      audio_queue :=
        if st.seg.voiced = [] then st.audio_queue else st.audio_queue ++ [st.seg.voiced] }

/-- The `finally` block of `record_audio_vad`, run by the recording thread
after its loop observes `is_recording = False`: close the stream, then
`if self.voiced_frames:` save and enqueue them. Again nothing is cleared. -/
def recordAudioVadFinal (st : Session) : Session :=
  { st with
      audio_queue :=
        if st.seg.voiced = [] then st.audio_queue else st.audio_queue ++ [st.seg.voiced] }

/-- A complete first `stop()` call on a running session with no further frames
arriving: `stop` flips the flag and flushes, and `recording_thread.join()`
returns only after the thread has exited its loop and run its `finally`
flush. Both flushes read the same un-cleared `voiced_frames`, in either
interleaving order, giving this queue. -/
def stopJoin (st : Session) : Session := recordAudioVadFinal (stopFlush st)

/-- A running session stopped while Triggered holding one accumulated frame. -/
def exStopSession : Session := ⟨true, ⟨[], true, [frameA]⟩, []⟩

/-- Claim C1 fails on the code: stopping while Triggered with a non-empty
utterance buffer enqueues the accumulated frames TWICE — once from `stop()`
and once from the recording thread's `finally` block — because
`voiced_frames` is never cleared; the claim (and the spec) require exactly
one final segment. -/
theorem stop_while_triggered_double_flush :
    (stopJoin exStopSession).audio_queue = [[frameA], [frameA]]
    ∧ (stopJoin exStopSession).audio_queue.length = 2 := by
  decide

/-- Claim C3 fails on the code: after a completed stop, `voiced_frames` is
still non-empty, so a second `stop()` call (whose joins return immediately)
enqueues yet another copy of the final segment and changes the session
state — stop is not idempotent. -/
theorem stop_second_call_flushes_again :
    (stopJoin exStopSession).audio_queue.length = 2
    ∧ (stopFlush (stopJoin exStopSession)).audio_queue.length = 3
    ∧ stopFlush (stopJoin exStopSession) ≠ stopJoin exStopSession := by
  decide

/-- The configuration of `FasterWhisperLiveTranscriber` relevant to
`load_model`; the loaded CTranslate2 model handle is abstract (a `Nat`). -/
structure FWConfig where
  model_name : String
  device : String
  compute_type : String
  model : Option Nat
deriving Repr, DecidableEq

/-- `load_model` of `FasterWhisperLiveTranscriber`: call
`WhisperModel(model_name, device=device, compute_type=compute_type)` — the
`loader` oracle, where `none` means the constructor raised. On exception it
prints the error, sets `device = "cpu"` and `compute_type = "int8"`, and
retries; if the retry also raises, the exception propagates out (`none`). -/
def load_model (loader : String → String → String → Option Nat) (st : FWConfig) :
    Option FWConfig :=
  match loader st.model_name st.device st.compute_type with
  | some m => some { st with model := some m }
  | none =>
    match loader st.model_name "cpu" "int8" with
    | some m => some { st with device := "cpu", compute_type := "int8", model := some m }
    | none => none

/-- A loader that fails for every configuration except cpu with int8. -/
def exLoader : String → String → String → Option Nat :=
  fun _ d c => if d = "cpu" ∧ c = "int8" then some 1 else none

/-- A cuda/float16 configuration with no model loaded yet. -/
def exConfig : FWConfig := ⟨"base", "cuda", "float16", none⟩

/-- Claim C4 counterexample: the initial load fails, yet `load_model`
succeeds by automatically falling back to cpu/int8 — the failure is not
fatal and a fallback does occur. -/
theorem load_model_fallback_cex :
    exLoader "base" "cuda" "float16" = none
    ∧ load_model exLoader exConfig = some ⟨"base", "cpu", "int8", some 1⟩ := by
  decide

/-- Claim C4 (amended): when the initial model load fails, `load_model`
automatically retries with device cpu and compute type int8 (mutating the
stored configuration); the failure is fatal to start only when that fallback
load also fails; a successful initial load changes nothing else. -/
theorem load_model_fallback_behavior :
    ∀ (loader : String → String → String → Option Nat) (st : FWConfig),
      (loader st.model_name st.device st.compute_type = none →
        loader st.model_name "cpu" "int8" = none →
        load_model loader st = none)
      ∧ (∀ m, loader st.model_name st.device st.compute_type = none →
          loader st.model_name "cpu" "int8" = some m →
          load_model loader st
            = some { st with device := "cpu", compute_type := "int8", model := some m })
      ∧ (∀ m, loader st.model_name st.device st.compute_type = some m →
          load_model loader st = some { st with model := some m }) := by
  intro loader st
  refine ⟨?_, ?_, ?_⟩
  · intro h1 h2
    simp [load_model, h1, h2]
  · intro m h1 h2
    simp [load_model, h1, h2]
  · intro m h1
    simp [load_model, h1]

/-- Witness for the amended C4 theorem: with a loader that always fails, the
failure is fatal. -/
theorem load_model_fallback_behavior_witness :
    (fun _ _ _ => (none : Option Nat) :
        String → String → String → Option Nat) "base" "cuda" "float16" = none
    ∧ load_model (fun _ _ _ => none) exConfig = none :=
  ⟨rfl, (load_model_fallback_behavior (fun _ _ _ => none) exConfig).1 rfl rfl⟩

/-- A transcript entry as built by `add_transcript`: timestamp, text, and
extra keyword data (language, confidence, duration, ...). Extra values are
carried as their already-formatted strings: the source's float formatting is
outside this embedding. -/
structure Entry where
  timestamp : String
  text : String
  extra : List (String × String)
deriving Repr, DecidableEq

/-- `TranscriptLogger`: tool and model names, `session_start_time` (an
abstract timestamp, `None` until `start_session` runs), the entry list, and
the session metadata (keyword arguments, as ordered key/value string pairs). -/
structure TranscriptLogger where
  tool_name : String
  model_name : String
  session_start_time : Option Nat
  transcript_entries : List Entry
  session_metadata : List (String × String)
deriving Repr, DecidableEq

/-- `TranscriptLogger.__init__(tool_name, model_name)`. -/
def TranscriptLogger.construct (tool model : String) : TranscriptLogger :=
  ⟨tool, model, none, [], []⟩

/-- `start_session(**metadata)`: record the current time as the session start,
replace the entry list with a fresh empty list and the metadata with exactly
the supplied keyword metadata. -/
def start_session (l : TranscriptLogger) (now : Nat) (md : List (String × String)) :
    TranscriptLogger :=
  { l with session_start_time := some now, transcript_entries := [], session_metadata := md }

/-- `add_transcript(text, timestamp=None, **extra_data)`: if the timestamp
argument is missing or falsy (`None` or the empty string), use the current
time; append the entry to the list. -/
def add_transcript (l : TranscriptLogger) (text : String) (timestamp : Option String)
    (now : String) (extra : List (String × String)) : TranscriptLogger :=
  let ts := match timestamp with
    | none => now
    | some s => if s = "" then now else s
  { l with transcript_entries := l.transcript_entries ++ [⟨ts, text, extra⟩] }

/-- The 70-character separator rule used in the transcript header. -/
def eq70 : String := String.mk (List.replicate 70 '=')

/-- The 50-character dashed rule after each detailed entry. -/
def dash50 : String := String.mk (List.replicate 50 '-')

/-- Python `str.title()` on one word: first letter uppercased, rest lowered. -/
def titleWord (w : String) : String :=
  match w.data with
  | [] => ""
  | c :: cs => String.mk (c.toUpper :: cs.map Char.toLower)

/-- Python `str.title()` on a space-separated string. -/
def pyTitle (k : String) : String :=
  String.intercalate " " ((k.splitOn " ").map titleWord)

/-- One extra key/value line of a detailed entry, mirroring the branches of
`_write_transcript_content` (`confidence` and `duration` have dedicated
formats; the numeric `:.2f` formatting is absorbed into the stored string). -/
def renderExtra (kv : String × String) : String :=
  if kv.1 = "confidence" then "Confidence: " ++ kv.2 ++ "\n"
  else if kv.1 = "duration" then "Processing time: " ++ kv.2 ++ "s\n"
  else pyTitle kv.1 ++ ": " ++ kv.2 ++ "\n"

/-- The numbered detailed entries: `enumerate(self.transcript_entries, 1)`. -/
def renderEntries : Nat → List Entry → String
  | _, [] => ""
  | i, e :: rest =>
    "[" ++ e.timestamp ++ "] Segment " ++ toString i ++ "\n"
      ++ "Text: " ++ e.text ++ "\n"
      ++ String.join (e.extra.map renderExtra)
      ++ dash50 ++ "\n\n"
      ++ renderEntries (i + 1) rest

/-- `_write_transcript_content`: header, metadata lines
(`key.replace('_', ' ').title()`), segment count, detailed transcript and
continuous transcript. Timestamps are printed through `toString`, and the
derived average-transcription-time line (a float computation over the
`transcription_times` metadata) is outside this embedding. -/
def renderTranscript (l : TranscriptLogger) (endT : Nat) : String :=
  let startStr := match l.session_start_time with
    | some t => toString t
    | none => ""
  eq70 ++ "\n"
    ++ l.tool_name.toUpper ++ " TRANSCRIPTION SESSION\n"
    ++ eq70 ++ "\n"
    ++ "Session started: " ++ startStr ++ "\n"
    ++ "Session ended: " ++ toString endT ++ "\n"
    ++ "Tool: " ++ l.tool_name ++ "\n"
    ++ "Model: " ++ l.model_name ++ "\n"
    ++ String.join (l.session_metadata.map
        (fun kv => pyTitle (kv.1.replace "_" " ") ++ ": " ++ kv.2 ++ "\n"))
    ++ "Total segments: " ++ toString l.transcript_entries.length ++ "\n"
    ++ "\n" ++ eq70 ++ "\n" ++ "DETAILED TRANSCRIPT\n" ++ eq70 ++ "\n\n"
    ++ renderEntries 1 l.transcript_entries
    ++ eq70 ++ "\n" ++ "CONTINUOUS TRANSCRIPT\n" ++ eq70 ++ "\n\n"
    ++ String.intercalate " " (l.transcript_entries.map Entry.text) ++ "\n"

/-- The output path `os.path.join("transcripts", f"transcript_....txt")`,
with the `strftime` timestamp abstracted to `toString`. -/
def transcriptFile (t : Nat) : String :=
  "transcripts/transcript_" ++ toString t ++ ".txt"

/-- `save_transcript(output_dir="transcripts")`: if there are no entries or
no session start time, print a notice and return `None` without touching the
filesystem; otherwise write the rendered content to the timestamped file and
return its path. `writeOk` models the `try/except` around the write: when
the write raises, the error is caught and `None` returned. The second
component records the files written, as (path, content) pairs. -/
def save_transcript (l : TranscriptLogger) (endT : Nat) (writeOk : Bool) :
    Option String × List (String × String) :=
  if l.transcript_entries.isEmpty || l.session_start_time.isNone then
    (none, [])
  else
    match l.session_start_time with
    | none => (none, [])
    | some t =>
      if writeOk then
        (some (transcriptFile t), [(transcriptFile t, renderTranscript l endT)])
      else
        (none, [])

/-- Claim C9: `save_transcript` returns `None` and writes no file whenever
the entry list is empty or no session has been started; otherwise (if the
file write does not raise) it returns the path of the written file. -/
theorem save_transcript_none_iff_guard :
    ∀ (l : TranscriptLogger) (endT : Nat) (w : Bool),
      ((l.transcript_entries = [] ∨ l.session_start_time = none) →
        save_transcript l endT w = (none, []))
      ∧ (∀ t, l.transcript_entries ≠ [] → l.session_start_time = some t → w = true →
          save_transcript l endT w
            = (some (transcriptFile t), [(transcriptFile t, renderTranscript l endT)])) := by
  intro l endT w
  constructor
  · intro h
    rcases h with h | h
    · simp [save_transcript, h]
    · simp [save_transcript, h]
  · intro t h1 h2 h3
    subst h3
    simp [save_transcript, h2, h1]

/-- A logger holding one entry inside a started session. -/
def exLogger : TranscriptLogger :=
  ⟨"faster-whisper", "base", some 5, [⟨"00:00:01", "hello", [("language", "en")]⟩],
   [("device", "cpu")]⟩

/-- Witness for C9: the concrete started, non-empty logger saves to its
timestamped path. -/
theorem save_transcript_none_iff_guard_witness :
    (exLogger.transcript_entries ≠ [] ∧ exLogger.session_start_time = some 5)
    ∧ save_transcript exLogger 9 true
        = (some (transcriptFile 5), [(transcriptFile 5, renderTranscript exLogger 9)]) :=
  ⟨⟨by decide, rfl⟩,
   (save_transcript_none_iff_guard exLogger 9 true).2 5 (by decide) rfl rfl⟩

/-- One recorded `add_transcript` call: text, optional timestamp argument,
the wall-clock time at the call, and extra keyword data. -/
structure AddCall where
  text : String
  timestamp : Option String
  now : String
  extra : List (String × String)
deriving Repr, DecidableEq

/-- A sequence of `add_transcript` calls applied in order. -/
def addAll (l : TranscriptLogger) : List AddCall → TranscriptLogger
  | [] => l
  | a :: rest => addAll (add_transcript l a.text a.timestamp a.now a.extra) rest

theorem start_session_erases (l l2 : TranscriptLogger) (now : Nat)
    (md : List (String × String))
    (ht : l.tool_name = l2.tool_name) (hm : l.model_name = l2.model_name) :
    start_session l now md = start_session l2 now md := by
  cases l
  cases l2
  simp only [start_session, TranscriptLogger.mk.injEq] at *
  exact ⟨ht, hm, trivial, trivial, trivial⟩

/-- Claim C10: `start_session` resets the logger — empty entry list, exactly
the supplied metadata, fresh start time — so every entry added before the
most recent `start_session` is discarded: two loggers that differ only in
their pre-existing entries, metadata or start time behave identically (same
return value, same written file and content) on any later adds and save. -/
theorem start_session_resets :
    ∀ (l : TranscriptLogger) (now : Nat) (md : List (String × String)),
      (start_session l now md).transcript_entries = []
      ∧ (start_session l now md).session_metadata = md
      ∧ (start_session l now md).session_start_time = some now
      ∧ (∀ (l2 : TranscriptLogger) (adds : List AddCall) (endT : Nat) (w : Bool),
          l.tool_name = l2.tool_name → l.model_name = l2.model_name →
          save_transcript (addAll (start_session l now md) adds) endT w
            = save_transcript (addAll (start_session l2 now md) adds) endT w) := by
  intro l now md
  refine ⟨rfl, rfl, rfl, ?_⟩
  intro l2 adds endT w ht hm
  rw [start_session_erases l l2 now md ht hm]

/-- Witness for C10: resetting the non-empty `exLogger` makes it save exactly
what a freshly constructed logger saves. -/
theorem start_session_resets_witness :
    (start_session exLogger 7 [("vad_mode", "2")]).transcript_entries = []
    ∧ save_transcript (addAll (start_session exLogger 7 [("vad_mode", "2")]) []) 9 true
        = save_transcript
            (addAll (start_session (TranscriptLogger.construct "faster-whisper" "base") 7
              [("vad_mode", "2")]) [])
            9 true :=
  ⟨(start_session_resets exLogger 7 [("vad_mode", "2")]).1,
   (start_session_resets exLogger 7 [("vad_mode", "2")]).2.2.2
     (TranscriptLogger.construct "faster-whisper" "base") [] 9 true rfl rfl⟩
